import Mathlib

/-!
Shallow embedding of two fragments of a node-graph compiler:

* `FunctionTreeMFNetworkBuilder` / `FNodeMFNetworkBuilder`
  (source/blender/functions/intern/node_tree_multi_function_network/builder.cc):
  lowering a function tree ("graph") into a multi-function network, with a
  bidirectional socket map.
* `FunctionBVM` (source/blender/blenvm/compile/bvm_function.cc):
  name-keyed lookup of arguments and return values.

Machine integers (`uint`) are modelled as `Nat`; the values involved (socket
counts, ids) never approach 2^32 in the modelled scenarios, and the source
performs no wrapping arithmetic on them.
-/

namespace FN

/-- `MFDataType` from the multi-function module: a data type is either a
single value of some base type or a vector (list) of it.  Base `CPPType`s are
identified by a numeric code since only equality of types matters here. -/
inductive MFDataType where
  | single (t : Nat)
  | vector (t : Nat)
deriving DecidableEq, Repr

/-- A socket of the function tree (graph).  `FInputSocket` and
`FOutputSocket` both carry an id (unique within the tree, in
`[0, socket_count)`) and a name. -/
structure FSocket where
  id : Nat
  name : String
deriving DecidableEq, Repr

/-- A node of the function tree: ordered input and output socket lists, a
name, and its RNA property storage.  `rnaString` models `RNA_string_get` on
the node's RNA pointer; `rnaCollection` models iterating an RNA collection
property and reading each item's "state" enum (`RNA_BEGIN`/`RNA_enum_get`). -/
structure FNode where
  name : String
  inputs : List FSocket
  outputs : List FSocket
  rnaString : String → String
  rnaCollection : String → List Int

/-- A socket of the network being built (`MFBuilderInputSocket` /
`MFBuilderOutputSocket`): an id unique in the network, a name and a resolved
data type. -/
structure MFBuilderSocket where
  id : Nat
  name : String
  dataType : MFDataType
deriving DecidableEq, Repr

/-- A node of the network being built; function and dummy nodes only differ
in the `isDummy` tag at this level of modelling. -/
structure MFBuilderNode where
  name : String
  isDummy : Bool
  inputs : List MFBuilderSocket
  outputs : List MFBuilderSocket
deriving DecidableEq, Repr

/-- A `MultiFunction` is identified by its signature (input/output data
types) and an opaque tag; `MF_SimpleVectorize` wraps a base function with a
per-input vectorization flag vector. -/
inductive MultiFunction where
  | primitive (tag : Nat) (inputTypes outputTypes : List MFDataType)
  | simpleVectorize (base : MultiFunction) (inputIsVectorized : List Bool)
deriving DecidableEq, Repr

/-- Lifting a data type to its list form, used by vectorization. -/
def vectorizeType : MFDataType → MFDataType
  | .single t => .vector t
  | .vector t => .vector t

/-- Modelled from the spec: `MF_SimpleVectorize`'s signature lifts flagged
inputs to list type and makes every output list-typed ("with the same output
arity/types as the base (now list-typed where vectorized)"); its
implementation is not part of the provided sources. -/
def MultiFunction.inputTypes : MultiFunction → List MFDataType
  | .primitive _ ins _ => ins
  | .simpleVectorize base flags =>
      (base.inputTypes.zip flags).map fun p => if p.2 then vectorizeType p.1 else p.1

/-- Output side of a `MultiFunction`'s signature (see
`MultiFunction.inputTypes`). -/
def MultiFunction.outputTypes : MultiFunction → List MFDataType
  | .primitive _ _ outs => outs
  | .simpleVectorize base _ => base.outputTypes.map vectorizeType

/-- The compile-time mapping tables (`VTreeMultiFunctionMappings`): type name
→ data type, and type name → `CPPType` (the latter identified by numeric
code).  Lookups are association-list lookups; an absent key is a lookup
failure (`BLI::Map::lookup` asserts presence and never returns a default). -/
structure VTreeMultiFunctionMappings where
  dataTypeByTypeName : List (String × MFDataType)
  cppTypeByName : List (String × Nat)

/-- Association-list lookup returning the first value stored under the key,
or `none` (modelling the failed `BLI::Map::lookup` assertion). -/
def tableLookup {α : Type} (tbl : List (String × α)) (key : String) : Option α :=
  (tbl.find? fun p => p.1 == key).map (·.2)

/-- The state of a `FunctionTreeMFNetworkBuilder`: the classifier view of the
tree (`classify`), the mapping tables, the tree's socket count, the network
nodes built so far, the next fresh network socket id, and the forward socket
map `m_socket_by_fsocket` as the insertion-ordered list of
(fsocket id, network socket id) pairs. -/
structure BuilderState where
  classify : Nat → Option MFDataType
  mappings : VTreeMultiFunctionMappings
  socketCount : Nat
  nodes : List MFBuilderNode
  nextSocketId : Nat
  socketByFSocket : List (Nat × Nat)

/-- Modelled from the spec: the Socket Classifier's
`try_get_data_type(socket)` "returns the resolved type if the socket is a
data socket, absent otherwise"; its implementation lives outside the
provided sources, so it is carried as the `classify` field keyed by socket
id. -/
def tryGetDataType (st : BuilderState) (s : FSocket) : Option MFDataType :=
  st.classify s.id

/-- Modelled from the spec: `is_data_socket(socket)` is true iff the socket
carries a data value, i.e. iff `try_get_data_type` returns a value. -/
def isDataC (classify : Nat → Option MFDataType) (s : FSocket) : Bool :=
  (classify s.id).isSome

/-- `is_data_socket` of the builder. -/
def isDataSocket (st : BuilderState) (s : FSocket) : Bool :=
  isDataC st.classify s

/-- `m_socket_by_fsocket.lookup(fsocket_id)`: the network socket ids mapped
from a graph socket id, in insertion order. -/
def lookupFSocket (st : BuilderState) (fid : Nat) : List Nat :=
  (st.socketByFSocket.filter fun p => p.1 == fid).map (·.2)

/-- All sockets of the network built so far, in node order. -/
def allSockets (st : BuilderState) : List MFBuilderSocket :=
  st.nodes.flatMap fun n => n.inputs ++ n.outputs

/-- The data type of the network socket with the given id, if it exists. -/
def socketType (st : BuilderState) (nid : Nat) : Option MFDataType :=
  ((allSockets st).find? fun s => s.id == nid).map (·.dataType)

/-- Fresh network sockets with consecutive ids starting at `i`, one per
(name, type) pair. -/
def freshSockets : Nat → List (String × MFDataType) → List MFBuilderSocket
  | _, [] => []
  | i, (n, t) :: rest => ⟨i, n, t⟩ :: freshSockets (i + 1) rest

/-- The (fsocket id, network socket id) pairs recorded by one direction of
`map_data_sockets`: walk `fsockets` in order; a data socket is paired with
`nsockets[k]` where `k` counts the data sockets seen so far; a non-data
socket leaves `k` unchanged.  An out-of-range index (UB in the source) yields
no defined entry. -/
def mapDataSocketsList (classify : Nat → Option MFDataType) :
    List FSocket → List MFBuilderSocket → Nat → List (Nat × Nat)
  | [], _, _ => []
  | f :: rest, nsockets, k =>
    if isDataC classify f then
      match nsockets[k]? with
      | some ns => (f.id, ns.id) :: mapDataSocketsList classify rest nsockets (k + 1)
      | none => mapDataSocketsList classify rest nsockets (k + 1)
    else
      mapDataSocketsList classify rest nsockets k

/-- `FunctionTreeMFNetworkBuilder::map_data_sockets(fnode, node)`: append the
positional input pairs then the positional output pairs to the forward
socket map. -/
def mapDataSockets (st : BuilderState) (fnode : FNode) (node : MFBuilderNode) :
    BuilderState :=
  { st with socketByFSocket := st.socketByFSocket
      ++ mapDataSocketsList st.classify fnode.inputs node.inputs 0
      ++ mapDataSocketsList st.classify fnode.outputs node.outputs 0 }

/-- Modelled from the spec: `MFNetworkBuilder::add_function` (outside the
provided sources) creates a function node whose input/output sockets follow
the function's own declared signature, with fresh ids. -/
def networkAddFunction (st : BuilderState) (fn : MultiFunction) :
    MFBuilderNode × BuilderState :=
  let ins := freshSockets st.nextSocketId (fn.inputTypes.map fun t => ("", t))
  let outs := freshSockets (st.nextSocketId + ins.length)
      (fn.outputTypes.map fun t => ("", t))
  let node : MFBuilderNode := ⟨"", false, ins, outs⟩
  (node, { st with
      nodes := st.nodes ++ [node],
      nextSocketId := st.nextSocketId + ins.length + outs.length })

/-- `FunctionTreeMFNetworkBuilder::add_function(function)`: insert a function
node; no socket mapping. -/
def addFunction (st : BuilderState) (fn : MultiFunction) :
    MFBuilderNode × BuilderState :=
  networkAddFunction st fn

/-- `FunctionTreeMFNetworkBuilder::add_function(function, fnode)`: insert a
function node, then map the graph node's data sockets onto it. -/
def addFunctionMapped (st : BuilderState) (fn : MultiFunction) (fnode : FNode) :
    MFBuilderNode × BuilderState :=
  let (node, st') := networkAddFunction st fn
  (node, mapDataSockets st' fnode node)

/-- The (name, type) list gathered by `add_dummy`'s first loop: one entry per
input socket whose `try_get_data_type` has a value. -/
def dummySocketDecl (classify : Nat → Option MFDataType) (sockets : List FSocket) :
    List (String × MFDataType) :=
  sockets.filterMap fun s => (classify s.id).map fun t => (s.name, t)

/-- `FunctionTreeMFNetworkBuilder::add_dummy(fnode)`: collect the data
sockets' names and types, build a dummy node with exactly those sockets
(modelled from the spec for `MFNetworkBuilder::add_dummy`, which creates one
network socket per declared name/type pair, with fresh ids), then map the
graph node's data sockets onto it. -/
def addDummy (st : BuilderState) (fnode : FNode) : MFBuilderNode × BuilderState :=
  let ins := freshSockets st.nextSocketId (dummySocketDecl st.classify fnode.inputs)
  let outs := freshSockets (st.nextSocketId + ins.length)
      (dummySocketDecl st.classify fnode.outputs)
  let node : MFBuilderNode := ⟨fnode.name, true, ins, outs⟩
  let st' : BuilderState := { st with
      nodes := st.nodes ++ [node],
      nextSocketId := st.nextSocketId + ins.length + outs.length }
  (node, mapDataSockets st' fnode node)

/-- Modelled from the spec: `lookup_socket(fsocket.as_input())` returns the
list of mapped network input sockets. -/
def lookupSocketInput (st : BuilderState) (s : FSocket) : List Nat :=
  lookupFSocket st s.id

/-- Modelled from the spec: `lookup_socket(fsocket.as_output())` returns a
single network socket reference — the one socket an output graph socket is
assumed to be mapped to (the first recorded entry). -/
def lookupSocketOutput (st : BuilderState) (s : FSocket) : Option Nat :=
  (lookupFSocket st s.id).head?

/-- `fsocket_is_mapped(fsocket)`: the socket has at least one forward map
entry. -/
def fsocketIsMapped (st : BuilderState) (s : FSocket) : Bool :=
  !(lookupFSocket st s.id).isEmpty

/-- `assert_fsocket_is_mapped_correctly` as a boolean check: the socket is
mapped, and — for an input — every mapped network socket has the data type
computed by `try_get_data_type`, while for an output only the single looked
up network socket is checked. -/
def assertFSocketMappedCorrectly (st : BuilderState) (s : FSocket)
    (isInput : Bool) : Bool :=
  fsocketIsMapped st s &&
  (if isInput then
    (lookupSocketInput st s).all fun nid =>
      decide (socketType st nid = tryGetDataType st s)
  else
    match lookupSocketOutput st s with
    | some nid => decide (socketType st nid = tryGetDataType st s)
    | none => false)

/-- `assert_data_sockets_are_mapped_correctly`: check every data socket of
the list. -/
def assertDataSocketsMappedCorrectly (st : BuilderState) (sockets : List FSocket)
    (isInput : Bool) : Bool :=
  sockets.all fun s =>
    if isDataSocket st s then assertFSocketMappedCorrectly st s isInput else true

/-- `assert_fnode_is_mapped_correctly(fnode)`: the debug diagnostic pass over
all input and output sockets of a graph node. -/
def assertFNodeMappedCorrectly (st : BuilderState) (fnode : FNode) : Bool :=
  assertDataSocketsMappedCorrectly st fnode.inputs true &&
  assertDataSocketsMappedCorrectly st fnode.outputs false

/-- `has_data_sockets(fnode)`. -/
def hasDataSockets (st : BuilderState) (fnode : FNode) : Bool :=
  fnode.inputs.any (isDataSocket st) || fnode.outputs.any (isDataSocket st)

/-- `cpp_type_from_property`: read the type name string from the node's RNA
property, then resolve it through `cpp_type_by_name` (a lookup in the
mappings' name table; absent names are a lookup failure, modelled as
`none`). -/
def cppTypeFromProperty (st : BuilderState) (fnode : FNode) (propName : String) :
    Option Nat :=
  tableLookup st.mappings.cppTypeByName (fnode.rnaString propName)

/-- `data_type_from_property`: read the type name string from the node's RNA
property, then `data_type_by_type_name.lookup` (absent names are a lookup
failure, modelled as `none`). -/
def dataTypeFromProperty (st : BuilderState) (fnode : FNode) (propName : String) :
    Option MFDataType :=
  tableLookup st.mappings.dataTypeByTypeName (fnode.rnaString propName)

/-- The loop body of `FNodeMFNetworkBuilder::get_list_base_variadic_states`:
state 0 appends `false`, state 1 appends `true`, any other state hits
`BLI_assert(false)` (a debug-build abort) and in release builds appends
nothing. -/
def collectVariadicStates : List Int → List Bool
  | [] => []
  | s :: rest =>
    if s = 0 then false :: collectVariadicStates rest
    else if s = 1 then true :: collectVariadicStates rest
    else collectVariadicStates rest

/-- `get_list_base_variadic_states(prop_name)` on a node. -/
def getListBaseVariadicStates (fnode : FNode) (propName : String) : List Bool :=
  collectVariadicStates (fnode.rnaCollection propName)

/-- The `BLI_assert` condition of `get_list_base_variadic_states`: every
record's state is 0 or 1. -/
def variadicStatesAssertOk (records : List Int) : Bool :=
  records.all fun s => s == 0 || s == 1

/-- `FNodeMFNetworkBuilder::get_vectorized_function(base_function,
is_vectorized_prop_names)`: read each named enum-string property of the
node; an input is vectorized iff its property reads "LIST"; if any input is
vectorized wrap the base in `MF_SimpleVectorize`, otherwise return the base
function itself. -/
def getVectorizedFunction (fnode : FNode) (baseFunction : MultiFunction)
    (isVectorizedPropNames : List String) : MultiFunction :=
  let inputIsVectorized := isVectorizedPropNames.map fun p =>
    fnode.rnaString p == "LIST"
  if inputIsVectorized.contains true then
    .simpleVectorize baseFunction inputIsVectorized
  else
    baseFunction

/-- The sentinel written into the reverse table for network sockets no graph
socket maps to (`IdMultiMap_UNMAPPED`, `uint` max). -/
def IdMultiMap_UNMAPPED : Nat := 4294967295

/-- Number of socket ids of the finished network (`network->socket_ids().size()`):
sockets are created with consecutive ids from 0. -/
def numNetworkSockets (st : BuilderState) : Nat := st.nextSocketId

/-- The reverse-table loop of `build()`: start from an array of
`IdMultiMap_UNMAPPED`, then for every graph socket id in `[0, socket_count)`
and every network socket id it maps to, write the graph socket id at that
network index (later writes overwrite earlier ones). -/
def buildReverseTable (st : BuilderState) : Array Nat :=
  (List.range st.socketCount).foldl
    (fun arr fid => (lookupFSocket st fid).foldl (fun a nid => a.setD nid fid) arr)
    (Array.mkArray (numNetworkSockets st) IdMultiMap_UNMAPPED)

/-- The result of `build()`: the finalized nodes, the frozen forward socket
map, and the reverse table. -/
structure FunctionTreeMFNetwork where
  nodes : List MFBuilderNode
  forward : List (Nat × Nat)
  reverse : Array Nat
deriving DecidableEq, Repr

/-- `FunctionTreeMFNetworkBuilder::build()`: freeze the network and package
the forward and reverse socket maps. -/
def build (st : BuilderState) : FunctionTreeMFNetwork :=
  ⟨st.nodes, st.socketByFSocket, buildReverseTable st⟩

end FN

namespace blenvm

/-- `blenvm::Argument`: a typed, named stack slot of a `FunctionBVM`
(`TypeDesc` and `StackIndex` are identified by numeric codes; only the name
is inspected by the lookups). -/
structure Argument where
  typedesc : Nat
  name : String
  stackOffset : Nat
deriving DecidableEq, Repr

/-- `blenvm::FunctionBVM`: its argument and return-value lists. -/
structure FunctionBVM where
  m_arguments : List Argument
  m_return_values : List Argument
deriving DecidableEq, Repr

/-- The search loop shared by `FunctionBVM::argument(name)` and
`FunctionBVM::return_value(name)`: return the first entry whose name equals
the key; falling off the end dereferences the end iterator (undefined
behaviour), modelled as `none`. -/
def findNamed : List Argument → String → Option Argument
  | [], _ => none
  | a :: rest, n => if a.name = n then some a else findNamed rest n

/-- `FunctionBVM::argument(const string &name)`. -/
def FunctionBVM.argumentByName (f : FunctionBVM) (n : String) : Option Argument :=
  findNamed f.m_arguments n

/-- `FunctionBVM::return_value(const string &name)`. -/
def FunctionBVM.returnValueByName (f : FunctionBVM) (n : String) : Option Argument :=
  findNamed f.m_return_values n

end blenvm

namespace FN

/-- Fresh sockets carry ids in `[i, i + decls.length)`. -/
theorem freshSockets_id_bounds :
    ∀ (decls : List (String × MFDataType)) (i : Nat) (s : MFBuilderSocket),
      s ∈ freshSockets i decls → i ≤ s.id ∧ s.id < i + decls.length := by
  intro decls
  induction decls with
  | nil => intro i s hs; simp [freshSockets] at hs
  | cons d rest ih =>
    intro i s hs
    rcases d with ⟨n, t⟩
    simp only [freshSockets, List.mem_cons] at hs
    rcases hs with rfl | hs
    · simp
    · have := ih (i + 1) s hs
      constructor <;> [omega; (simp only [List.length_cons]; omega)]

/-- Fresh sockets reproduce the declaration list's names and types. -/
theorem freshSockets_decl :
    ∀ (decls : List (String × MFDataType)) (i : Nat),
      (freshSockets i decls).map (fun s => (s.name, s.dataType)) = decls := by
  intro decls
  induction decls with
  | nil => intro i; rfl
  | cons d rest ih =>
    intro i
    rcases d with ⟨n, t⟩
    simp [freshSockets, ih]

/-- One fresh socket per declaration. -/
theorem freshSockets_length (decls : List (String × MFDataType)) (i : Nat) :
    (freshSockets i decls).length = decls.length := by
  have := congrArg List.length (freshSockets_decl decls i)
  simpa using this

/-- The ids of fresh sockets are the consecutive range starting at `i`. -/
theorem freshSockets_ids :
    ∀ (decls : List (String × MFDataType)) (i : Nat),
      (freshSockets i decls).map (·.id) = List.range' i decls.length := by
  intro decls
  induction decls with
  | nil => intro i; rfl
  | cons d rest ih =>
    intro i
    rcases d with ⟨n, t⟩
    simp [freshSockets, ih, List.range']

/-- The pairs recorded by one direction of `map_data_sockets` are exactly the
positional zip of the graph node's data sockets (from index `k` on the
network side) with the network node's sockets. -/
theorem mapDataSocketsList_eq_zip (classify : Nat → Option MFDataType) :
    ∀ (fsockets : List FSocket) (nsockets : List MFBuilderSocket) (k : Nat),
      mapDataSocketsList classify fsockets nsockets k
        = ((fsockets.filter (isDataC classify)).zip (nsockets.drop k)).map
            fun p => (p.1.id, p.2.id) := by
  intro fsockets
  induction fsockets with
  | nil => intro nsockets k; simp [mapDataSocketsList]
  | cons f rest ih =>
    intro nsockets k
    by_cases hd : isDataC classify f
    · rcases hns : nsockets[k]? with _ | ns
      · have hk : nsockets.length ≤ k := by
          simpa using List.getElem?_eq_none_iff.mp hns
        have hdropk : nsockets.drop k = [] := List.drop_eq_nil_of_le hk
        have hdropk1 : nsockets.drop (k + 1) = [] :=
          List.drop_eq_nil_of_le (Nat.le_succ_of_le hk)
        simp [mapDataSocketsList, hd, hns, ih, hdropk, hdropk1]
      · have hklt : k < nsockets.length := by
          by_contra hge
          simp [List.getElem?_eq_none_iff.mpr (Nat.le_of_not_lt hge)] at hns
        have hget : nsockets[k] = ns := by
          have := List.getElem?_eq_getElem hklt
          rw [hns] at this
          exact (Option.some_injective _ this.symm)
        have hdrop : nsockets.drop k = ns :: nsockets.drop (k + 1) := by
          rw [List.drop_eq_getElem_cons hklt, hget]
        simp [mapDataSocketsList, hd, hns, ih, hdrop]
    · simp [mapDataSocketsList, hd, ih]

/-- C1: `map_data_sockets` pairs the k-th data input socket of the graph node
(walking the inputs in order and skipping non-data sockets) with the k-th
input socket of the network node, and likewise for outputs: the recorded
pairs are exactly the positional zip of the data-socket sub-list with the
network node's socket list, so the k-th recorded input pair is
(k-th data input socket, k-th network input socket) and a non-data socket
never shifts a data socket to a different network index. -/
theorem map_data_sockets_positional (st : BuilderState) (fnode : FNode)
    (node : MFBuilderNode) :
    (mapDataSockets st fnode node).socketByFSocket
      = st.socketByFSocket
        ++ ((fnode.inputs.filter (isDataC st.classify)).zip node.inputs).map
              (fun p => (p.1.id, p.2.id))
        ++ ((fnode.outputs.filter (isDataC st.classify)).zip node.outputs).map
              (fun p => (p.1.id, p.2.id))
    ∧ (∀ k (h1 : k < (fnode.inputs.filter (isDataC st.classify)).length)
          (h2 : k < node.inputs.length),
        (((fnode.inputs.filter (isDataC st.classify)).zip node.inputs).map
            (fun p => (p.1.id, p.2.id)))[k]?
          = some (((fnode.inputs.filter (isDataC st.classify))[k]).id,
                  (node.inputs[k]).id))
    ∧ (∀ k (h1 : k < (fnode.outputs.filter (isDataC st.classify)).length)
          (h2 : k < node.outputs.length),
        (((fnode.outputs.filter (isDataC st.classify)).zip node.outputs).map
            (fun p => (p.1.id, p.2.id)))[k]?
          = some (((fnode.outputs.filter (isDataC st.classify))[k]).id,
                  (node.outputs[k]).id)) := by
  refine ⟨?_, ?_, ?_⟩
  · simp [mapDataSockets, mapDataSocketsList_eq_zip]
  · intro k h1 h2
    have hz : k < ((fnode.inputs.filter (isDataC st.classify)).zip
        node.inputs).length := by
      rw [List.length_zip]; exact lt_min h1 h2
    have hm : k < (((fnode.inputs.filter (isDataC st.classify)).zip
        node.inputs).map (fun p => (p.1.id, p.2.id))).length := by
      simpa using hz
    rw [List.getElem?_eq_getElem hm, List.getElem_map, List.getElem_zip]
  · intro k h1 h2
    have hz : k < ((fnode.outputs.filter (isDataC st.classify)).zip
        node.outputs).length := by
      rw [List.length_zip]; exact lt_min h1 h2
    have hm : k < (((fnode.outputs.filter (isDataC st.classify)).zip
        node.outputs).map (fun p => (p.1.id, p.2.id))).length := by
      simpa using hz
    rw [List.getElem?_eq_getElem hm, List.getElem_map, List.getElem_zip]

/-- A concrete tree used by several evaluations below: graph sockets 0 and 2
are data sockets of type `single 0`, socket 1 is not a data socket. -/
def sampleClassify : Nat → Option MFDataType :=
  fun i => if i = 0 ∨ i = 2 then some (.single 0) else none

/-- An empty-network builder state over `sampleClassify` with three graph
sockets. -/
def sampleState : BuilderState :=
  { classify := sampleClassify
    mappings := ⟨[], []⟩
    socketCount := 3
    nodes := []
    nextSocketId := 0
    socketByFSocket := [] }

/-- A node with data inputs `a` (id 0) and `c` (id 2) separated by the
non-data input `b` (id 1). -/
def sampleFNode : FNode :=
  { name := "n"
    inputs := [⟨0, "a"⟩, ⟨1, "b"⟩, ⟨2, "c"⟩]
    outputs := []
    rnaString := fun _ => ""
    rnaCollection := fun _ => [] }

/-- A network node with two input sockets, ids 10 and 11. -/
def sampleNode : MFBuilderNode :=
  { name := ""
    isDummy := false
    inputs := [⟨10, "", .single 0⟩, ⟨11, "", .single 0⟩]
    outputs := [] }

/-- Witness for `map_data_sockets_positional`: with data inputs a (id 0) and
c (id 2) separated by non-data b (id 1), the 0-th recorded input pair is
(a, network input 10) — `a → input[0]`, not `a → input[1]`. -/
theorem map_data_sockets_positional_witness :
    (((sampleFNode.inputs.filter (isDataC sampleState.classify)).zip
        sampleNode.inputs).map (fun p => (p.1.id, p.2.id)))[0]?
      = some (0, 10) :=
  (map_data_sockets_positional sampleState sampleFNode sampleNode).2.1 0
    (by decide) (by decide)

/-- C7: the single-argument `add_function` performs no socket mapping — the
socket map is unchanged, the new node is appended after the existing nodes,
the classifier, the mappings and the old sockets are untouched — and the
two-argument overload is exactly `add_function` followed by
`map_data_sockets` on the created node. -/
theorem add_function_frame (st : BuilderState) (fn : MultiFunction) :
    ((addFunction st fn).2).socketByFSocket = st.socketByFSocket
    ∧ ((addFunction st fn).2).nodes = st.nodes ++ [(addFunction st fn).1]
    ∧ ((addFunction st fn).2).classify = st.classify
    ∧ ((addFunction st fn).2).mappings = st.mappings
    ∧ ((addFunction st fn).2).socketCount = st.socketCount
    ∧ (∀ nid, nid < st.nextSocketId →
        socketType ((addFunction st fn).2) nid = socketType st nid)
    ∧ (∀ fnode, addFunctionMapped st fn fnode
        = ((addFunction st fn).1,
           mapDataSockets (addFunction st fn).2 fnode (addFunction st fn).1)) := by
  refine ⟨rfl, rfl, rfl, rfl, rfl, ?_, fun _ => rfl⟩
  intro nid hnid
  unfold socketType
  have hall : allSockets ((addFunction st fn).2)
      = allSockets st ++ ((addFunction st fn).1.inputs
          ++ (addFunction st fn).1.outputs) := by
    simp [allSockets, addFunction, networkAddFunction]
  rw [hall, List.find?_append]
  rcases hfind : (allSockets st).find? (fun s => s.id == nid) with _ | s
  · have hnew : ((addFunction st fn).1.inputs
        ++ (addFunction st fn).1.outputs).find? (fun s => s.id == nid) = none := by
      rw [List.find?_eq_none]
      intro s hs
      have hge : st.nextSocketId ≤ s.id := by
        rcases List.mem_append.mp hs with h | h
        · exact (freshSockets_id_bounds _ _ _ h).1
        · have := (freshSockets_id_bounds _ _ _ h).1
          omega
      simp only [beq_iff_eq]
      omega
    simp [hnew]
  · simp [hfind]

/-- A state with one existing network node (socket ids 0 and 1). -/
def sampleStateWithNode : BuilderState :=
  { classify := sampleClassify
    mappings := ⟨[], []⟩
    socketCount := 3
    nodes := [⟨"m", false, [⟨0, "", .single 0⟩], [⟨1, "", .single 1⟩]⟩]
    nextSocketId := 2
    socketByFSocket := [] }

/-- Witness for `add_function_frame`: adding a function node to a state whose
sockets 0 and 1 already exist leaves the type of socket 0 unchanged. -/
theorem add_function_frame_witness :
    socketType ((addFunction sampleStateWithNode
        (.primitive 7 [.single 0] [])).2) 0
      = socketType sampleStateWithNode 0 :=
  (add_function_frame sampleStateWithNode (.primitive 7 [.single 0] [])).2.2.2.2.2.1
    0 (by decide)

/-- A wrapped function is never the function it wraps. -/
theorem simpleVectorize_ne (m : MultiFunction) (flags : List Bool) :
    MultiFunction.simpleVectorize m flags ≠ m := by
  intro h
  have hsz := congrArg sizeOf h
  simp only [MultiFunction.simpleVectorize.sizeOf_spec] at hsz
  omega

/-- C4: `get_vectorized_function` returns the base callable itself when no
input's property reads "LIST", and otherwise returns the
`MF_SimpleVectorize` wrapper around the base (a new callable, distinct from
the base), with the per-input flag vector read from the properties in
order. -/
theorem get_vectorized_function_identity_or_wrap (fnode : FNode)
    (baseFunction : MultiFunction) (propNames : List String) :
    ((propNames.map fun p => fnode.rnaString p == "LIST").contains true = false →
      getVectorizedFunction fnode baseFunction propNames = baseFunction)
    ∧ ((propNames.map fun p => fnode.rnaString p == "LIST").contains true = true →
      getVectorizedFunction fnode baseFunction propNames
          = .simpleVectorize baseFunction
              (propNames.map fun p => fnode.rnaString p == "LIST")
        ∧ getVectorizedFunction fnode baseFunction propNames ≠ baseFunction) := by
  constructor
  · intro h
    simp only [getVectorizedFunction, h]
    rfl
  · intro h
    have he : getVectorizedFunction fnode baseFunction propNames
        = .simpleVectorize baseFunction
            (propNames.map fun p => fnode.rnaString p == "LIST") := by
      simp only [getVectorizedFunction, h]
      rfl
    exact ⟨he, by rw [he]; exact simpleVectorize_ne _ _⟩

/-- A node whose property "use_list__a" reads "LIST" and whose property
"use_list__b" reads "BASE". -/
def vectorizedFNode : FNode :=
  { name := "v"
    inputs := []
    outputs := []
    rnaString := fun p => if p = "use_list__a" then "LIST" else "BASE"
    rnaCollection := fun _ => [] }

/-- Witness for `get_vectorized_function_identity_or_wrap`: with one input
flagged "LIST" the result is the `MF_SimpleVectorize` wrapper and is not the
base function. -/
theorem get_vectorized_function_identity_or_wrap_witness :
    getVectorizedFunction vectorizedFNode (.primitive 3 [] [])
        ["use_list__a", "use_list__b"]
      = .simpleVectorize (.primitive 3 [] []) [true, false]
    ∧ getVectorizedFunction vectorizedFNode (.primitive 3 [] [])
        ["use_list__a", "use_list__b"]
      ≠ .primitive 3 [] [] :=
  (get_vectorized_function_identity_or_wrap vectorizedFNode (.primitive 3 [] [])
    ["use_list__a", "use_list__b"]).2 (by decide)

/-- A successful `tableLookup` returns a value stored under the key. -/
theorem tableLookup_some {α : Type} (tbl : List (String × α)) (key : String)
    (a : α) (h : tableLookup tbl key = some a) : (key, a) ∈ tbl := by
  unfold tableLookup at h
  rcases hf : tbl.find? (fun p => p.1 == key) with _ | p
  · rw [hf] at h; simp at h
  · rw [hf] at h
    simp only [Option.map_some', Option.some_inj] at h
    have hkey : p.1 = key := by simpa using List.find?_some hf
    have hmem : p ∈ tbl := List.mem_of_find?_eq_some hf
    have hpa : (key, a) = p := by
      rw [← hkey, ← h]
    rw [hpa]
    exact hmem

/-- `tableLookup` fails exactly when no entry is stored under the key. -/
theorem tableLookup_none {α : Type} (tbl : List (String × α)) (key : String) :
    tableLookup tbl key = none ↔ ∀ a : α, (key, a) ∉ tbl := by
  unfold tableLookup
  rcases hf : tbl.find? (fun p => p.1 == key) with _ | p
  · rw [hf]
    refine iff_of_true rfl ?_
    intro a hmem
    have := List.find?_eq_none.mp hf (key, a) hmem
    simp at this
  · rw [hf]
    have hkey : p.1 = key := by simpa using List.find?_some hf
    have hmem : p ∈ tbl := List.mem_of_find?_eq_some hf
    refine iff_of_false (by simp) ?_
    intro h
    refine h p.2 ?_
    have hpa : (key, p.2) = p := by
      rw [← hkey]
    rw [hpa]
    exact hmem

/-- C5: `data_type_from_property` and `cpp_type_from_property` resolve the
type name read from the node's property through the fixed name table and
either return a type recorded there under that name or fail (`none`, the
failed lookup); a type that is not stored under the name is never
returned. -/
theorem type_from_property_lookup_no_default (st : BuilderState) (fnode : FNode)
    (propName : String) :
    (∀ t, dataTypeFromProperty st fnode propName = some t →
      (fnode.rnaString propName, t) ∈ st.mappings.dataTypeByTypeName)
    ∧ (dataTypeFromProperty st fnode propName = none ↔
      ∀ t, (fnode.rnaString propName, t) ∉ st.mappings.dataTypeByTypeName)
    ∧ (∀ c, cppTypeFromProperty st fnode propName = some c →
      (fnode.rnaString propName, c) ∈ st.mappings.cppTypeByName)
    ∧ (cppTypeFromProperty st fnode propName = none ↔
      ∀ c, (fnode.rnaString propName, c) ∉ st.mappings.cppTypeByName) :=
  ⟨fun t h => tableLookup_some _ _ t h,
   tableLookup_none _ _,
   fun c h => tableLookup_some _ _ c h,
   tableLookup_none _ _⟩

/-- A state whose data-type table maps "Float" (only), and a node whose
"active_type" property reads "Float". -/
def typedState : BuilderState :=
  { classify := fun _ => none
    mappings := ⟨[("Float", .single 0)], [("Float", 0)]⟩
    socketCount := 0
    nodes := []
    nextSocketId := 0
    socketByFSocket := [] }

/-- Node whose "active_type" property reads "Float". -/
def typedFNode : FNode :=
  { name := "t"
    inputs := []
    outputs := []
    rnaString := fun p => if p = "active_type" then "Float" else "???"
    rnaCollection := fun _ => [] }

/-- Witness for `type_from_property_lookup_no_default`: the "Float" result of
the lookup is an entry of the table. -/
theorem type_from_property_lookup_no_default_witness :
    ("Float", MFDataType.single 0) ∈ typedState.mappings.dataTypeByTypeName :=
  (type_from_property_lookup_no_default typedState typedFNode "active_type").1
    (.single 0) (by decide)

/-- `collectVariadicStates` keeps exactly the records with state 0 or 1, in
order, 0 becoming `false` and 1 becoming `true`. -/
theorem collectVariadicStates_eq_filter :
    ∀ records : List Int,
      collectVariadicStates records
        = (records.filter fun s => s == 0 || s == 1).map fun s => s == 1 := by
  intro records
  induction records with
  | nil => rfl
  | cons s rest ih =>
    by_cases h0 : s = 0
    · simp [collectVariadicStates, h0, ih]
    · by_cases h1 : s = 1
      · simp [collectVariadicStates, h0, h1, ih]
      · simp [collectVariadicStates, h0, h1, ih]

/-- C9: `get_list_base_variadic_states` returns one boolean per record whose
state is 0 (`false`) or 1 (`true`), in record order; a record with any other
state fails the `BLI_assert` condition and contributes no element, making
the result strictly shorter than the record list. -/
theorem get_list_base_variadic_states_spec (fnode : FNode) (propName : String) :
    getListBaseVariadicStates fnode propName
      = ((fnode.rnaCollection propName).filter fun s => s == 0 || s == 1).map
          (fun s => s == 1)
    ∧ ((∃ s ∈ fnode.rnaCollection propName, s ≠ 0 ∧ s ≠ 1) →
        (getListBaseVariadicStates fnode propName).length
          < (fnode.rnaCollection propName).length)
    ∧ (variadicStatesAssertOk (fnode.rnaCollection propName) = false ↔
        ∃ s ∈ fnode.rnaCollection propName, s ≠ 0 ∧ s ≠ 1) := by
  refine ⟨collectVariadicStates_eq_filter _, ?_, ?_⟩
  · rintro ⟨s, hmem, h0, h1⟩
    unfold getListBaseVariadicStates
    rw [collectVariadicStates_eq_filter, List.length_map]
    refine lt_of_le_of_ne (List.length_filter_le _ _) ?_
    intro hlen
    have := (List.filter_length_eq_length).mp hlen s hmem
    simp [h0, h1] at this
  · unfold variadicStatesAssertOk
    rw [Bool.eq_false_iff, ne_eq]
    simp only [List.all_eq_true, Bool.or_eq_true, beq_iff_eq]
    push_neg
    tauto

/-- A node whose "variadic" collection property has records with states 0, 5
and 1 (5 being invalid). -/
def variadicFNode : FNode :=
  { name := "w"
    inputs := []
    outputs := []
    rnaString := fun _ => ""
    rnaCollection := fun p => if p = "variadic" then [0, 5, 1] else [] }

/-- Witness for `get_list_base_variadic_states_spec`: with states [0, 5, 1]
the result has only 2 elements, strictly fewer than the 3 records. -/
theorem get_list_base_variadic_states_spec_witness :
    (getListBaseVariadicStates variadicFNode "variadic").length
      < (variadicFNode.rnaCollection "variadic").length :=
  (get_list_base_variadic_states_spec variadicFNode "variadic").2.1
    (by decide)

end FN

namespace blenvm

/-- The lookup loop is `List.find?` on the name predicate. -/
theorem findNamed_eq_find? : ∀ (l : List Argument) (n : String),
    findNamed l n = l.find? fun a => a.name == n := by
  intro l n
  induction l with
  | nil => rfl
  | cons a rest ih =>
    by_cases h : a.name = n
    · rw [findNamed, if_pos h, List.find?_cons_of_pos _ (by simpa using h)]
    · rw [findNamed, if_neg h, List.find?_cons_of_neg _ (by simpa using h), ih]

/-- `findNamed` returns an element exactly when it is the first entry of the
list bearing the name. -/
theorem findNamed_some_iff (l : List Argument) (n : String) (a : Argument) :
    findNamed l n = some a
      ↔ a.name = n ∧ ∃ l1 l2, l = l1 ++ a :: l2 ∧ ∀ b ∈ l1, b.name ≠ n := by
  rw [findNamed_eq_find?, List.find?_eq_some]
  constructor
  · rintro ⟨hpa, l1, l2, heq, hall⟩
    exact ⟨by simpa using hpa, l1, l2, heq,
      fun b hb => by simpa using hall b hb⟩
  · rintro ⟨hname, l1, l2, heq, hall⟩
    exact ⟨by simpa using hname, l1, l2, heq,
      fun b hb => by simpa using hall b hb⟩

/-- `findNamed` falls off the end (dereferencing the end iterator in the
source) exactly when no entry bears the name. -/
theorem findNamed_none_iff (l : List Argument) (n : String) :
    findNamed l n = none ↔ ∀ a ∈ l, a.name ≠ n := by
  rw [findNamed_eq_find?, List.find?_eq_none]
  simp

/-- C10: `argument(name)` and `return_value(name)` return the first stored
entry whose name equals the given string (an entry with the name, preceded
only by entries with other names); when no entry has the name the loop falls
off the end (modelled as `none`), so a well-defined result exists exactly
when some entry with the name is present. -/
theorem lookup_by_name_first_match (f : FunctionBVM) (n : String) :
    (∀ a, f.argumentByName n = some a
      ↔ a.name = n ∧ ∃ l1 l2, f.m_arguments = l1 ++ a :: l2
          ∧ ∀ b ∈ l1, b.name ≠ n)
    ∧ (f.argumentByName n = none ↔ ∀ a ∈ f.m_arguments, a.name ≠ n)
    ∧ (∀ a, f.returnValueByName n = some a
      ↔ a.name = n ∧ ∃ l1 l2, f.m_return_values = l1 ++ a :: l2
          ∧ ∀ b ∈ l1, b.name ≠ n)
    ∧ (f.returnValueByName n = none ↔ ∀ a ∈ f.m_return_values, a.name ≠ n) :=
  ⟨fun a => findNamed_some_iff f.m_arguments n a,
   findNamed_none_iff f.m_arguments n,
   fun a => findNamed_some_iff f.m_return_values n a,
   findNamed_none_iff f.m_return_values n⟩

/-- A function with two arguments and one return value. -/
def sampleFunctionBVM : FunctionBVM :=
  { m_arguments := [⟨0, "x", 0⟩, ⟨1, "y", 1⟩]
    m_return_values := [⟨2, "out", 2⟩] }

/-- Witness for `lookup_by_name_first_match`: looking up a name no argument
has falls off the end. -/
theorem lookup_by_name_first_match_witness :
    sampleFunctionBVM.argumentByName "z" = none :=
  (lookup_by_name_first_match sampleFunctionBVM "z").2.1.mpr (by decide)

end blenvm

namespace FN

/-- `setD` writes at the given index when it is in bounds and leaves every
other position unchanged. -/
theorem getElem?_setD (a : Array Nat) (i j v : Nat) (hj : j < a.size) :
    (a.setD i v)[j]? = if i = j then some v else a[j]? := by
  unfold Array.setD
  split
  · rename_i hi
    have hj' : j < (a.set ⟨i, hi⟩ v).size := by simpa using hj
    rw [Array.getElem?_eq_getElem hj', Array.getElem_set]
    by_cases hij : i = j
    · simp [hij]
    · simp [hij, Array.getElem?_eq_getElem hj]
  · rename_i hi
    have hij : i ≠ j := by omega
    simp [hij]

/-- Folding `setD` writes over a list preserves the array size. -/
theorem foldl_setD_size (fid : Nat) : ∀ (l : List Nat) (arr : Array Nat),
    (l.foldl (fun a n => a.setD n fid) arr).size = arr.size := by
  intro l
  induction l with
  | nil => intro arr; rfl
  | cons m rest ih =>
    intro arr
    rw [List.foldl_cons, ih, Array.size_setD]

/-- After folding `setD fid` over a list of indices, an in-bounds position
holds `fid` iff the position occurs in the list, and its old value
otherwise. -/
theorem foldl_setD_getElem? (fid : Nat) : ∀ (l : List Nat) (arr : Array Nat)
    (nid : Nat), nid < arr.size →
    (l.foldl (fun a n => a.setD n fid) arr)[nid]?
      = if nid ∈ l then some fid else arr[nid]? := by
  intro l
  induction l with
  | nil => intro arr nid _; simp
  | cons m rest ih =>
    intro arr nid hnid
    rw [List.foldl_cons]
    have hsize : nid < (arr.setD m fid).size := by
      rw [Array.size_setD]; exact hnid
    rw [ih _ _ hsize]
    by_cases hmem : nid ∈ rest
    · simp [hmem, List.mem_cons]
    · rw [getElem?_setD _ _ _ _ hnid]
      by_cases hm : m = nid
      · simp [hmem, hm, List.mem_cons]
      · have hnm : nid ∉ m :: rest := by
          intro hc
          rcases List.mem_cons.mp hc with hc' | hc'
          · exact hm hc'.symm
          · exact hmem hc'
        simp [hmem, hm, hnm]

/-- The value an in-bounds position of the reverse-table fold ends up with:
the last graph socket id (in scan order) whose mapping list contains the
position, or the starting array's value when there is none. -/
theorem foldl_reverse_scan (st : BuilderState) : ∀ (fids : List Nat)
    (arr : Array Nat) (nid : Nat), nid < arr.size →
    (fids.foldl
        (fun a fid => (lookupFSocket st fid).foldl (fun a' n => a'.setD n fid) a)
        arr)[nid]?
      = ((fids.filter fun fid => decide (nid ∈ lookupFSocket st fid)).getLast?).elim
          arr[nid]? some := by
  intro fids
  induction fids with
  | nil => intro arr nid _; simp
  | cons f rest ih =>
    intro arr nid hnid
    rw [List.foldl_cons]
    have hsize : nid <
        ((lookupFSocket st f).foldl (fun a' n => a'.setD n f) arr).size := by
      rw [foldl_setD_size]; exact hnid
    rw [ih _ _ hsize, foldl_setD_getElem? _ _ _ _ hnid]
    by_cases hm : nid ∈ lookupFSocket st f
    · rw [List.filter_cons_of_pos (by simpa using hm)]
      rcases hrest : rest.filter (fun fid => decide (nid ∈ lookupFSocket st fid))
          with _ | ⟨g, t⟩
      · simp [hrest, hm]
      · have hne : (g :: t) ≠ [] := by simp
        obtain ⟨x, hx⟩ := Option.isSome_iff_exists.mp
          ((List.getLast?_isSome).mpr hne)
        simp [hrest, hx]
    · rw [List.filter_cons_of_neg (by simpa using hm)]
      simp [hm]

/-- The claim that `build` records the FIRST matching graph socket in the
reverse table is false: with graph sockets 0 and 1 both mapped to network
socket 0, the reverse table records graph socket 1 — the first match in scan
order is 0, but the recorded id is 1. -/
def reverseSampleState : BuilderState :=
  { classify := fun _ => none
    mappings := ⟨[], []⟩
    socketCount := 2
    nodes := []
    nextSocketId := 1
    socketByFSocket := [(0, 0), (1, 0)] }

/-- Counterexample to C3 as stated: the reverse table entry for network
socket 0 is graph socket 1, although graph socket 0 is the first (in
table-scan order) whose forward mapping contains network socket 0. -/
theorem build_reverse_table_not_first :
    ((build reverseSampleState).reverse)[0]? = some 1
    ∧ ((List.range reverseSampleState.socketCount).filter
        (fun fid => decide (0 ∈ lookupFSocket reverseSampleState fid))).head?
        = some 0
    ∧ (1 : Nat) ≠ 0 := by
  refine ⟨by decide, by decide, by decide⟩

/-- C3 (amended): for every in-bounds network socket id, `build` records the
LAST graph socket id (in the deterministic scan over graph socket ids
0, 1, …, socket_count−1) whose forward mapping contains that network socket
id, or the `IdMultiMap_UNMAPPED` sentinel when no graph socket maps to it;
the result is deterministic, never ambiguous. -/
theorem build_reverse_table_last_match (st : BuilderState) (nid : Nat)
    (h : nid < numNetworkSockets st) :
    ((build st).reverse)[nid]?
      = some ((((List.range st.socketCount).filter
          (fun fid => decide (nid ∈ lookupFSocket st fid))).getLast?).getD
            IdMultiMap_UNMAPPED) := by
  show (buildReverseTable st)[nid]? = _
  unfold buildReverseTable
  have hin : nid < (Array.mkArray (numNetworkSockets st) IdMultiMap_UNMAPPED).size := by
    rw [Array.size_mkArray]; exact h
  rw [foldl_reverse_scan st _ _ _ hin]
  rw [Array.getElem?_mkArray, if_pos h]
  rcases hgl : ((List.range st.socketCount).filter
      (fun fid => decide (nid ∈ lookupFSocket st fid))).getLast? with _ | x
  · simp [hgl]
  · simp [hgl]

/-- Witness for `build_reverse_table_last_match` at network socket 0 of the
doubly-mapped state: the recorded id (1) is the last match. -/
theorem build_reverse_table_last_match_witness :
    ((build reverseSampleState).reverse)[0]?
      = some ((((List.range reverseSampleState.socketCount).filter
          (fun fid => decide (0 ∈ lookupFSocket reverseSampleState fid))).getLast?).getD
            IdMultiMap_UNMAPPED) :=
  build_reverse_table_last_match reverseSampleState 0 (by decide)

/-- The socket-map entries stored under one graph socket id, in insertion
order (the body of `lookupFSocket`, on any entry list). -/
def pairsFor (ps : List (Nat × Nat)) (fid : Nat) : List Nat :=
  (ps.filter fun p => p.1 == fid).map (·.2)

/-- `lookupFSocket` is `pairsFor` on the state's entry list. -/
theorem lookupFSocket_eq_pairsFor (st : BuilderState) (fid : Nat) :
    lookupFSocket st fid = pairsFor st.socketByFSocket fid := rfl

/-- `pairsFor` distributes over appended entry lists. -/
theorem pairsFor_append (ps qs : List (Nat × Nat)) (fid : Nat) :
    pairsFor (ps ++ qs) fid = pairsFor ps fid ++ pairsFor qs fid := by
  unfold pairsFor
  rw [List.filter_append, List.map_append]

/-- Entries built from socket pairs hold nothing under an id that is not one
of the paired graph ids. -/
theorem pairsFor_zipPairs_nil (ps : List (FSocket × MFBuilderSocket)) (fid : Nat)
    (h : fid ∉ ps.map fun q => q.1.id) :
    pairsFor (ps.map fun q => (q.1.id, q.2.id)) fid = [] := by
  unfold pairsFor
  rw [List.map_eq_nil_iff, List.filter_eq_nil_iff]
  intro x hx
  rcases List.mem_map.mp hx with ⟨r, hr, rfl⟩
  simp only [beq_iff_eq]
  intro hc
  exact h (hc ▸ List.mem_map.mpr ⟨r, hr, rfl⟩)

/-- Entries built from socket pairs with pairwise distinct graph ids: the
entries under the id of a paired graph socket are exactly its one partner. -/
theorem pairsFor_zipPairs_single :
    ∀ (ps : List (FSocket × MFBuilderSocket)),
      ((ps.map fun q => q.1.id).Nodup) →
      ∀ p ∈ ps, pairsFor (ps.map fun q => (q.1.id, q.2.id)) p.1.id = [p.2.id] := by
  intro ps
  induction ps with
  | nil => intro _ p hp; simp at hp
  | cons q rest ih =>
    intro hnd p hp
    have hnd' : (rest.map fun q => q.1.id).Nodup := (List.nodup_cons.mp hnd).2
    have hq : q.1.id ∉ rest.map fun q => q.1.id := (List.nodup_cons.mp hnd).1
    rcases List.mem_cons.mp hp with rfl | hp'
    · have hrest : pairsFor (rest.map fun q => (q.1.id, q.2.id)) p.1.id = [] :=
        pairsFor_zipPairs_nil rest p.1.id hq
      unfold pairsFor at hrest ⊢
      rw [List.map_cons, List.filter_cons_of_pos (by simp), List.map_cons,
        hrest]
    · have hne : q.1.id ≠ p.1.id := by
        intro hc
        exact hq (hc ▸ List.mem_map.mpr ⟨p, hp', rfl⟩)
      unfold pairsFor
      rw [List.map_cons, List.filter_cons_of_neg (by simpa using hne)]
      exact ih hnd' p hp'

/-- `find?` by id on a list whose ids are pairwise distinct returns the
member itself. -/
theorem find?_nodup_ids :
    ∀ (l : List MFBuilderSocket), ((l.map (·.id)).Nodup) →
      ∀ ns ∈ l, l.find? (fun q => q.id == ns.id) = some ns := by
  intro l
  induction l with
  | nil => intro _ ns hns; simp at hns
  | cons a rest ih =>
    intro hnd ns hns
    have hnd' : (rest.map (·.id)).Nodup := (List.nodup_cons.mp hnd).2
    have ha : a.id ∉ rest.map (·.id) := (List.nodup_cons.mp hnd).1
    rcases List.mem_cons.mp hns with rfl | hns'
    · rw [List.find?_cons_of_pos _ (by simp)]
    · have hne : a.id ≠ ns.id := by
        intro hc
        exact ha (hc ▸ List.mem_map.mpr ⟨ns, hns', rfl⟩)
      rw [List.find?_cons_of_neg _ (by simpa using hne)]
      exact ih hnd' ns hns'

/-- The common shape of `add_dummy` and of the two-argument `add_function`:
create a node whose sockets are fresh sockets for the given declaration
lists, append it, and run `map_data_sockets` against the graph node. -/
def addNodeMapped (st : BuilderState) (fnode : FNode) (nm : String) (dum : Bool)
    (declIn declOut : List (String × MFDataType)) : MFBuilderNode × BuilderState :=
  let ins := freshSockets st.nextSocketId declIn
  let outs := freshSockets (st.nextSocketId + ins.length) declOut
  let node : MFBuilderNode := ⟨nm, dum, ins, outs⟩
  let st' : BuilderState := { st with
      nodes := st.nodes ++ [node],
      nextSocketId := st.nextSocketId + ins.length + outs.length }
  (node, mapDataSockets st' fnode node)

/-- `add_dummy` is `addNodeMapped` on the collected data-socket
declarations. -/
theorem addDummy_eq_addNodeMapped (st : BuilderState) (fnode : FNode) :
    addDummy st fnode
      = addNodeMapped st fnode fnode.name true
          (dummySocketDecl st.classify fnode.inputs)
          (dummySocketDecl st.classify fnode.outputs) := rfl

/-- The two-argument `add_function` is `addNodeMapped` on the function's
signature. -/
theorem addFunctionMapped_eq_addNodeMapped (st : BuilderState)
    (fn : MultiFunction) (fnode : FNode) :
    addFunctionMapped st fn fnode
      = addNodeMapped st fnode "" false
          (fn.inputTypes.map fun t => ("", t))
          (fn.outputTypes.map fun t => ("", t)) := rfl

/-- Lookup after `addNodeMapped`: the old entries, then the positional input
pairs, then the positional output pairs. -/
theorem lookupFSocket_addNodeMapped (st : BuilderState) (fnode : FNode)
    (nm : String) (dum : Bool) (declIn declOut : List (String × MFDataType))
    (fid : Nat) :
    lookupFSocket ((addNodeMapped st fnode nm dum declIn declOut).2) fid
      = lookupFSocket st fid
        ++ pairsFor (((fnode.inputs.filter (isDataC st.classify)).zip
              (freshSockets st.nextSocketId declIn)).map
                fun p => (p.1.id, p.2.id)) fid
        ++ pairsFor (((fnode.outputs.filter (isDataC st.classify)).zip
              (freshSockets (st.nextSocketId
                  + (freshSockets st.nextSocketId declIn).length) declOut)).map
                fun p => (p.1.id, p.2.id)) fid := by
  show pairsFor _ fid = _
  rw [show ((addNodeMapped st fnode nm dum declIn declOut).2).socketByFSocket
      = st.socketByFSocket
        ++ mapDataSocketsList st.classify fnode.inputs
            (freshSockets st.nextSocketId declIn) 0
        ++ mapDataSocketsList st.classify fnode.outputs
            (freshSockets (st.nextSocketId
                + (freshSockets st.nextSocketId declIn).length) declOut) 0 from rfl]
  rw [pairsFor_append, pairsFor_append, mapDataSocketsList_eq_zip,
    mapDataSocketsList_eq_zip, List.drop_zero, List.drop_zero]
  rfl

/-- The entry list after `addNodeMapped`, decomposed. -/
theorem socketByFSocket_addNodeMapped (st : BuilderState) (fnode : FNode)
    (nm : String) (dum : Bool) (declIn declOut : List (String × MFDataType)) :
    ((addNodeMapped st fnode nm dum declIn declOut).2).socketByFSocket
      = st.socketByFSocket
        ++ mapDataSocketsList st.classify fnode.inputs
            (freshSockets st.nextSocketId declIn) 0
        ++ mapDataSocketsList st.classify fnode.outputs
            (freshSockets (st.nextSocketId
                + (freshSockets st.nextSocketId declIn).length) declOut) 0 := rfl

/-- For a socket of the first (input-side) zip: its map entries are exactly
its one partner, and the output-side zip holds nothing under its id. -/
theorem zip_lookup_left (A B : List FSocket) (NA NB : List MFBuilderSocket)
    (hlen : A.length ≤ NA.length)
    (hnd : ((A ++ B).map (·.id)).Nodup)
    (s : FSocket) (hs : s ∈ A) :
    ∃ p ∈ A.zip NA, p.1 = s
      ∧ pairsFor ((A.zip NA).map fun q => (q.1.id, q.2.id)) s.id = [p.2.id]
      ∧ pairsFor ((B.zip NB).map fun q => (q.1.id, q.2.id)) s.id = [] := by
  have hmapfst : (A.zip NA).map Prod.fst = A := List.map_fst_zip A NA hlen
  have hsz : s ∈ (A.zip NA).map Prod.fst := by rw [hmapfst]; exact hs
  rcases List.mem_map.mp hsz with ⟨p, hp, hps⟩
  rw [List.map_append] at hnd
  refine ⟨p, hp, hps, ?_, ?_⟩
  · have hndA : (A.map (·.id)).Nodup := hnd.of_append_left
    have hzipids : ((A.zip NA).map fun q => q.1.id) = A.map (·.id) := by
      conv_rhs => rw [← hmapfst]
      rw [List.map_map]
      rfl
    have hsingle := pairsFor_zipPairs_single (A.zip NA) (hzipids ▸ hndA) p hp
    rw [(show p.1.id = s.id from hps ▸ rfl)] at hsingle
    exact hsingle
  · apply pairsFor_zipPairs_nil
    intro hc
    rcases List.mem_map.mp hc with ⟨q, hq, hqid⟩
    have hq1 : q.1 ∈ B := (List.of_mem_zip hq).1
    have hsidB : s.id ∈ B.map (·.id) := hqid ▸ List.mem_map.mpr ⟨q.1, hq1, rfl⟩
    have hsidA : s.id ∈ A.map (·.id) := List.mem_map.mpr ⟨s, hs, rfl⟩
    exact (List.disjoint_of_nodup_append hnd) hsidA hsidB

/-- For a socket of the second (output-side) zip: the input-side zip holds
nothing under its id, and its map entries are exactly its one partner. -/
theorem zip_lookup_right (A B : List FSocket) (NA NB : List MFBuilderSocket)
    (hlen : B.length ≤ NB.length)
    (hnd : ((A ++ B).map (·.id)).Nodup)
    (s : FSocket) (hs : s ∈ B) :
    ∃ p ∈ B.zip NB, p.1 = s
      ∧ pairsFor ((A.zip NA).map fun q => (q.1.id, q.2.id)) s.id = []
      ∧ pairsFor ((B.zip NB).map fun q => (q.1.id, q.2.id)) s.id = [p.2.id] := by
  have hmapfst : (B.zip NB).map Prod.fst = B := List.map_fst_zip B NB hlen
  have hsz : s ∈ (B.zip NB).map Prod.fst := by rw [hmapfst]; exact hs
  rcases List.mem_map.mp hsz with ⟨p, hp, hps⟩
  rw [List.map_append] at hnd
  refine ⟨p, hp, hps, ?_, ?_⟩
  · apply pairsFor_zipPairs_nil
    intro hc
    rcases List.mem_map.mp hc with ⟨q, hq, hqid⟩
    have hq1 : q.1 ∈ A := (List.of_mem_zip hq).1
    have hsidA : s.id ∈ A.map (·.id) := hqid ▸ List.mem_map.mpr ⟨q.1, hq1, rfl⟩
    have hsidB : s.id ∈ B.map (·.id) := List.mem_map.mpr ⟨s, hs, rfl⟩
    exact (List.disjoint_of_nodup_append hnd) hsidA hsidB
  · have hndB : (B.map (·.id)).Nodup := hnd.of_append_right
    have hzipids : ((B.zip NB).map fun q => q.1.id) = B.map (·.id) := by
      conv_rhs => rw [← hmapfst]
      rw [List.map_map]
      rfl
    have hsingle := pairsFor_zipPairs_single (B.zip NB) (hzipids ▸ hndB) p hp
    rw [(show p.1.id = s.id from hps ▸ rfl)] at hsingle
    exact hsingle

/-- A socket of the node appended by `addNodeMapped` resolves to its own
data type, provided all pre-existing network sockets have smaller ids. -/
theorem socketType_addNodeMapped (st : BuilderState) (fnode : FNode)
    (nm : String) (dum : Bool) (declIn declOut : List (String × MFDataType))
    (hWF : ∀ q ∈ allSockets st, q.id < st.nextSocketId)
    (ns : MFBuilderSocket)
    (hns : ns ∈ freshSockets st.nextSocketId declIn
        ++ freshSockets (st.nextSocketId
            + (freshSockets st.nextSocketId declIn).length) declOut) :
    socketType ((addNodeMapped st fnode nm dum declIn declOut).2) ns.id
      = some ns.dataType := by
  have hall : allSockets ((addNodeMapped st fnode nm dum declIn declOut).2)
      = allSockets st ++ (freshSockets st.nextSocketId declIn
        ++ freshSockets (st.nextSocketId
            + (freshSockets st.nextSocketId declIn).length) declOut) := by
    simp [addNodeMapped, mapDataSockets, allSockets]
  unfold socketType
  rw [hall, List.find?_append]
  have hold : (allSockets st).find? (fun q => q.id == ns.id) = none := by
    rw [List.find?_eq_none]
    intro q hq
    have h1 := hWF q hq
    have h2 : st.nextSocketId ≤ ns.id := by
      rcases List.mem_append.mp hns with h | h
      · exact (freshSockets_id_bounds _ _ _ h).1
      · have := (freshSockets_id_bounds _ _ _ h).1
        omega
    simp only [beq_iff_eq]
    omega
  have hndids : ((freshSockets st.nextSocketId declIn
      ++ freshSockets (st.nextSocketId
          + (freshSockets st.nextSocketId declIn).length) declOut).map (·.id)).Nodup := by
    rw [List.map_append, freshSockets_ids, freshSockets_ids, freshSockets_length]
    have hra := List.range'_append st.nextSocketId declIn.length declOut.length 1
    rw [one_mul] at hra
    rw [hra]
    exact List.nodup_range' _ _
  rw [hold, find?_nodup_ids _ hndids ns hns]
  rfl

/-- Lookup after `addNodeMapped` at a data input socket of the graph node:
exactly one new entry, its positional partner among the node's fresh input
sockets. -/
theorem lookup_addNodeMapped_data_input (st : BuilderState) (fnode : FNode)
    (nm : String) (dum : Bool) (declIn declOut : List (String × MFDataType))
    (hFresh : ∀ s ∈ fnode.inputs ++ fnode.outputs,
        isDataC st.classify s = true → lookupFSocket st s.id = [])
    (hNodup : (((fnode.inputs ++ fnode.outputs).filter
        (isDataC st.classify)).map (·.id)).Nodup)
    (hlenIn : (fnode.inputs.filter (isDataC st.classify)).length ≤ declIn.length)
    (s : FSocket) (hs : s ∈ fnode.inputs)
    (hd : isDataC st.classify s = true) :
    ∃ p ∈ (fnode.inputs.filter (isDataC st.classify)).zip
        (freshSockets st.nextSocketId declIn), p.1 = s
      ∧ lookupFSocket ((addNodeMapped st fnode nm dum declIn declOut).2) s.id
          = [p.2.id] := by
  have hndAB : (((fnode.inputs.filter (isDataC st.classify))
      ++ (fnode.outputs.filter (isDataC st.classify))).map (·.id)).Nodup := by
    rw [← List.filter_append]
    exact hNodup
  have hlenNA : (fnode.inputs.filter (isDataC st.classify)).length
      ≤ (freshSockets st.nextSocketId declIn).length := by
    rw [freshSockets_length]
    exact hlenIn
  have hsA : s ∈ fnode.inputs.filter (isDataC st.classify) :=
    List.mem_filter.mpr ⟨hs, hd⟩
  obtain ⟨p, hp, hps, h1, h2⟩ := zip_lookup_left
    (fnode.inputs.filter (isDataC st.classify))
    (fnode.outputs.filter (isDataC st.classify))
    (freshSockets st.nextSocketId declIn)
    (freshSockets (st.nextSocketId
        + (freshSockets st.nextSocketId declIn).length) declOut)
    hlenNA hndAB s hsA
  refine ⟨p, hp, hps, ?_⟩
  rw [lookupFSocket_addNodeMapped,
    hFresh s (List.mem_append.mpr (Or.inl hs)) hd, h1, h2]
  simp

/-- Lookup after `addNodeMapped` at a data output socket of the graph node:
exactly one new entry, its positional partner among the node's fresh output
sockets. -/
theorem lookup_addNodeMapped_data_output (st : BuilderState) (fnode : FNode)
    (nm : String) (dum : Bool) (declIn declOut : List (String × MFDataType))
    (hFresh : ∀ s ∈ fnode.inputs ++ fnode.outputs,
        isDataC st.classify s = true → lookupFSocket st s.id = [])
    (hNodup : (((fnode.inputs ++ fnode.outputs).filter
        (isDataC st.classify)).map (·.id)).Nodup)
    (hlenOut : (fnode.outputs.filter (isDataC st.classify)).length ≤ declOut.length)
    (s : FSocket) (hs : s ∈ fnode.outputs)
    (hd : isDataC st.classify s = true) :
    ∃ p ∈ (fnode.outputs.filter (isDataC st.classify)).zip
        (freshSockets (st.nextSocketId
            + (freshSockets st.nextSocketId declIn).length) declOut), p.1 = s
      ∧ lookupFSocket ((addNodeMapped st fnode nm dum declIn declOut).2) s.id
          = [p.2.id] := by
  have hndAB : (((fnode.inputs.filter (isDataC st.classify))
      ++ (fnode.outputs.filter (isDataC st.classify))).map (·.id)).Nodup := by
    rw [← List.filter_append]
    exact hNodup
  have hlenNB : (fnode.outputs.filter (isDataC st.classify)).length
      ≤ (freshSockets (st.nextSocketId
          + (freshSockets st.nextSocketId declIn).length) declOut).length := by
    rw [freshSockets_length]
    exact hlenOut
  have hsB : s ∈ fnode.outputs.filter (isDataC st.classify) :=
    List.mem_filter.mpr ⟨hs, hd⟩
  obtain ⟨p, hp, hps, h1, h2⟩ := zip_lookup_right
    (fnode.inputs.filter (isDataC st.classify))
    (fnode.outputs.filter (isDataC st.classify))
    (freshSockets st.nextSocketId declIn)
    (freshSockets (st.nextSocketId
        + (freshSockets st.nextSocketId declIn).length) declOut)
    hlenNB hndAB s hsB
  refine ⟨p, hp, hps, ?_⟩
  rw [lookupFSocket_addNodeMapped,
    hFresh s (List.mem_append.mpr (Or.inr hs)) hd, h1, h2]
  simp

/-- Lookup after `addNodeMapped` under any id that is not a data socket id of
the graph node is unchanged. -/
theorem lookup_addNodeMapped_other (st : BuilderState) (fnode : FNode)
    (nm : String) (dum : Bool) (declIn declOut : List (String × MFDataType))
    (fid : Nat)
    (h : fid ∉ ((fnode.inputs ++ fnode.outputs).filter
        (isDataC st.classify)).map (·.id)) :
    lookupFSocket ((addNodeMapped st fnode nm dum declIn declOut).2) fid
      = lookupFSocket st fid := by
  rw [lookupFSocket_addNodeMapped]
  rw [List.filter_append] at h
  have hA : pairsFor (((fnode.inputs.filter (isDataC st.classify)).zip
      (freshSockets st.nextSocketId declIn)).map
        fun p => (p.1.id, p.2.id)) fid = [] := by
    apply pairsFor_zipPairs_nil
    intro hc
    rcases List.mem_map.mp hc with ⟨q, hq, hqid⟩
    have hq1 := (List.of_mem_zip hq).1
    exact h (List.mem_map.mpr ⟨q.1, List.mem_append.mpr (Or.inl hq1), hqid⟩)
  have hB : pairsFor (((fnode.outputs.filter (isDataC st.classify)).zip
      (freshSockets (st.nextSocketId
          + (freshSockets st.nextSocketId declIn).length) declOut)).map
        fun p => (p.1.id, p.2.id)) fid = [] := by
    apply pairsFor_zipPairs_nil
    intro hc
    rcases List.mem_map.mp hc with ⟨q, hq, hqid⟩
    have hq1 := (List.of_mem_zip hq).1
    exact h (List.mem_map.mpr ⟨q.1, List.mem_append.mpr (Or.inr hq1), hqid⟩)
  rw [hA, hB]
  simp

/-- Transferring a per-position typing relation from declarations to the
fresh sockets built for them. -/
theorem forall₂_freshSockets (classify : Nat → Option MFDataType)
    {fs : List FSocket} {decls : List (String × MFDataType)}
    (h : List.Forall₂ (fun f d => classify f.id = some d.2) fs decls) :
    ∀ i, List.Forall₂
      (fun f (ns : MFBuilderSocket) => classify f.id = some ns.dataType)
      fs (freshSockets i decls) := by
  induction h with
  | nil => intro i; exact List.Forall₂.nil
  | cons hR hRest ih =>
    intro i
    rename_i f d fs' decls'
    rcases d with ⟨n, t⟩
    exact List.Forall₂.cons hR (ih (i + 1))

/-- The data sockets of a list are positionally typed by the declaration
list `add_dummy` collects for them. -/
theorem forall₂_dummyDecl (classify : Nat → Option MFDataType) :
    ∀ l : List FSocket,
      List.Forall₂ (fun f d => classify f.id = some d.2)
        (l.filter (isDataC classify)) (dummySocketDecl classify l) := by
  intro l
  induction l with
  | nil => exact List.Forall₂.nil
  | cons f rest ih =>
    rcases h : classify f.id with _ | t
    · have hd : ¬ isDataC classify f = true := by simp [isDataC, h]
      rw [List.filter_cons_of_neg hd]
      have hdecl : dummySocketDecl classify (f :: rest)
          = dummySocketDecl classify rest := by
        unfold dummySocketDecl
        rw [List.filterMap_cons]
        simp [h]
      rw [hdecl]
      exact ih
    · have hd : isDataC classify f = true := by simp [isDataC, h]
      rw [List.filter_cons_of_pos hd]
      have hdecl : dummySocketDecl classify (f :: rest)
          = (f.name, t) :: dummySocketDecl classify rest := by
        unfold dummySocketDecl
        rw [List.filterMap_cons]
        simp [h]
      rw [hdecl]
      exact List.Forall₂.cons (by simp [h]) ih

/-- The input-side check of `assert_fsocket_is_mapped_correctly`: the socket
is mapped and every mapped network socket has its classifier type. -/
theorem assertFSocket_input_iff (st : BuilderState) (s : FSocket) :
    assertFSocketMappedCorrectly st s true = true
      ↔ (lookupFSocket st s.id ≠ []
         ∧ ∀ nid ∈ lookupFSocket st s.id,
             socketType st nid = tryGetDataType st s) := by
  unfold assertFSocketMappedCorrectly fsocketIsMapped lookupSocketInput
  simp [List.all_eq_true, List.isEmpty_iff]

/-- The output-side check of `assert_fsocket_is_mapped_correctly`: the socket
is mapped and the single looked-up network socket has its classifier
type. -/
theorem assertFSocket_output_iff (st : BuilderState) (s : FSocket) :
    assertFSocketMappedCorrectly st s false = true
      ↔ ∃ nid, (lookupFSocket st s.id).head? = some nid
          ∧ socketType st nid = tryGetDataType st s := by
  unfold assertFSocketMappedCorrectly fsocketIsMapped lookupSocketOutput
  rcases h : (lookupFSocket st s.id).head? with _ | nid
  · have hnil : lookupFSocket st s.id = [] := List.head?_eq_none_iff.mp h
    simp [hnil]
  · have hne : lookupFSocket st s.id ≠ [] := by
      intro hc
      rw [hc] at h
      simp at h
    simp [h, List.isEmpty_iff, hne]

/-- `assert_data_sockets_are_mapped_correctly` checks exactly the data
sockets of the list. -/
theorem assertDataSockets_iff (st : BuilderState) (sockets : List FSocket)
    (isInput : Bool) :
    assertDataSocketsMappedCorrectly st sockets isInput = true
      ↔ ∀ s ∈ sockets, isDataSocket st s = true →
          assertFSocketMappedCorrectly st s isInput = true := by
  unfold assertDataSocketsMappedCorrectly
  rw [List.all_eq_true]
  constructor
  · intro h s hs hd
    have hcheck := h s hs
    rw [if_pos hd] at hcheck
    exact hcheck
  · intro h s hs
    by_cases hd : isDataSocket st s = true
    · rw [if_pos hd]
      exact h s hs hd
    · rw [if_neg hd]

/-- After `addNodeMapped` with positionally matching declarations: every
data socket of the graph node has exactly one (hence at least one) map
entry, every network socket it maps to has its classifier type, and the
diagnostic pass succeeds. -/
theorem addNodeMapped_mapped_ok (st : BuilderState) (fnode : FNode)
    (nm : String) (dum : Bool) (declIn declOut : List (String × MFDataType))
    (hWF : ∀ q ∈ allSockets st, q.id < st.nextSocketId)
    (hFresh : ∀ s ∈ fnode.inputs ++ fnode.outputs,
        isDataC st.classify s = true → lookupFSocket st s.id = [])
    (hNodup : (((fnode.inputs ++ fnode.outputs).filter
        (isDataC st.classify)).map (·.id)).Nodup)
    (hIn : List.Forall₂ (fun f d => st.classify f.id = some d.2)
        (fnode.inputs.filter (isDataC st.classify)) declIn)
    (hOut : List.Forall₂ (fun f d => st.classify f.id = some d.2)
        (fnode.outputs.filter (isDataC st.classify)) declOut) :
    (∀ s ∈ fnode.inputs ++ fnode.outputs, isDataC st.classify s = true →
        lookupFSocket ((addNodeMapped st fnode nm dum declIn declOut).2) s.id ≠ []
        ∧ ∀ nid ∈ lookupFSocket
            ((addNodeMapped st fnode nm dum declIn declOut).2) s.id,
            socketType ((addNodeMapped st fnode nm dum declIn declOut).2) nid
              = tryGetDataType st s)
    ∧ assertFNodeMappedCorrectly
        ((addNodeMapped st fnode nm dum declIn declOut).2) fnode = true := by
  have hRIn := forall₂_freshSockets st.classify hIn st.nextSocketId
  have hROut := forall₂_freshSockets st.classify hOut
    (st.nextSocketId + (freshSockets st.nextSocketId declIn).length)
  have hper : ∀ s ∈ fnode.inputs ++ fnode.outputs, isDataC st.classify s = true →
      ∃ nid, lookupFSocket ((addNodeMapped st fnode nm dum declIn declOut).2) s.id
          = [nid]
        ∧ socketType ((addNodeMapped st fnode nm dum declIn declOut).2) nid
            = tryGetDataType st s := by
    intro s hs hd
    rcases List.mem_append.mp hs with hin | hout
    · obtain ⟨p, hp, hps, hlook⟩ := lookup_addNodeMapped_data_input st fnode
        nm dum declIn declOut hFresh hNodup
        (le_of_eq hIn.length_eq) s hin hd
      refine ⟨p.2.id, hlook, ?_⟩
      have hR : st.classify p.1.id = some p.2.dataType := by
        have := (List.forall₂_iff_zip.mp hRIn).2
          (show (p.1, p.2) ∈ _ from by rw [Prod.mk.eta]; exact hp)
        exact this
      have hmem : p.2 ∈ freshSockets st.nextSocketId declIn
          ++ freshSockets (st.nextSocketId
              + (freshSockets st.nextSocketId declIn).length) declOut :=
        List.mem_append.mpr (Or.inl (List.of_mem_zip hp).2)
      rw [socketType_addNodeMapped st fnode nm dum declIn declOut hWF p.2 hmem]
      rw [← hR, hps]
      rfl
    · obtain ⟨p, hp, hps, hlook⟩ := lookup_addNodeMapped_data_output st fnode
        nm dum declIn declOut hFresh hNodup
        (le_of_eq hOut.length_eq) s hout hd
      refine ⟨p.2.id, hlook, ?_⟩
      have hR : st.classify p.1.id = some p.2.dataType := by
        have := (List.forall₂_iff_zip.mp hROut).2
          (show (p.1, p.2) ∈ _ from by rw [Prod.mk.eta]; exact hp)
        exact this
      have hmem : p.2 ∈ freshSockets st.nextSocketId declIn
          ++ freshSockets (st.nextSocketId
              + (freshSockets st.nextSocketId declIn).length) declOut :=
        List.mem_append.mpr (Or.inr (List.of_mem_zip hp).2)
      rw [socketType_addNodeMapped st fnode nm dum declIn declOut hWF p.2 hmem]
      rw [← hR, hps]
      rfl
  constructor
  · intro s hs hd
    obtain ⟨nid, hlook, htype⟩ := hper s hs hd
    refine ⟨by rw [hlook]; simp, ?_⟩
    intro nid' hnid'
    rw [hlook] at hnid'
    rcases List.mem_singleton.mp hnid' with rfl
    exact htype
  · unfold assertFNodeMappedCorrectly
    rw [Bool.and_eq_true, assertDataSockets_iff, assertDataSockets_iff]
    constructor
    · intro s hs hd
      rw [assertFSocket_input_iff]
      obtain ⟨nid, hlook, htype⟩ :=
        hper s (List.mem_append.mpr (Or.inl hs)) hd
      refine ⟨by rw [hlook]; simp, ?_⟩
      intro nid' hnid'
      rw [hlook] at hnid'
      rcases List.mem_singleton.mp hnid' with rfl
      exact htype
    · intro s hs hd
      rw [assertFSocket_output_iff]
      obtain ⟨nid, hlook, htype⟩ :=
        hper s (List.mem_append.mpr (Or.inr hs)) hd
      exact ⟨nid, by rw [hlook]; rfl, htype⟩

/-- `buildReverseTable` depends only on the socket count, the forward map
and the socket-id supply. -/
theorem buildReverseTable_congr (st1 st2 : BuilderState)
    (h1 : st1.socketCount = st2.socketCount)
    (h2 : st1.socketByFSocket = st2.socketByFSocket)
    (h3 : st1.nextSocketId = st2.nextSocketId) :
    buildReverseTable st1 = buildReverseTable st2 := by
  unfold buildReverseTable numNetworkSockets lookupFSocket
  rw [h1, h2, h3]

/-- C6: the dummy node's socket lists are exactly the ordered data-socket
sub-lists of the graph node, names and types taken from
`try_get_data_type`; for a graph node with zero data sockets the lists are
empty, the socket map gains no entry, and `build` produces the same forward
and reverse maps as before. -/
theorem add_dummy_data_socket_lists (st : BuilderState) (fnode : FNode) :
    ((addDummy st fnode).1).inputs.map (fun ns => (ns.name, ns.dataType))
        = fnode.inputs.filterMap
            (fun s => (tryGetDataType st s).map fun t => (s.name, t))
    ∧ ((addDummy st fnode).1).outputs.map (fun ns => (ns.name, ns.dataType))
        = fnode.outputs.filterMap
            (fun s => (tryGetDataType st s).map fun t => (s.name, t))
    ∧ ((∀ s ∈ fnode.inputs, tryGetDataType st s = none) →
       (∀ s ∈ fnode.outputs, tryGetDataType st s = none) →
        ((addDummy st fnode).1).inputs = []
        ∧ ((addDummy st fnode).1).outputs = []
        ∧ ((addDummy st fnode).2).socketByFSocket = st.socketByFSocket
        ∧ (build ((addDummy st fnode).2)).forward = (build st).forward
        ∧ (build ((addDummy st fnode).2)).reverse = (build st).reverse) := by
  refine ⟨freshSockets_decl _ _, freshSockets_decl _ _, ?_⟩
  intro hin hout
  have hdeclIn : dummySocketDecl st.classify fnode.inputs = [] := by
    apply List.filterMap_eq_nil_iff.mpr
    intro s hs
    rw [show st.classify s.id = none from hin s hs]
    rfl
  have hdeclOut : dummySocketDecl st.classify fnode.outputs = [] := by
    apply List.filterMap_eq_nil_iff.mpr
    intro s hs
    rw [show st.classify s.id = none from hout s hs]
    rfl
  have hfilIn : fnode.inputs.filter (isDataC st.classify) = [] := by
    apply List.filter_eq_nil_iff.mpr
    intro s hs
    simp [isDataC, show st.classify s.id = none from hin s hs]
  have hfilOut : fnode.outputs.filter (isDataC st.classify) = [] := by
    apply List.filter_eq_nil_iff.mpr
    intro s hs
    simp [isDataC, show st.classify s.id = none from hout s hs]
  have hins : ((addDummy st fnode).1).inputs = [] := by
    show freshSockets st.nextSocketId (dummySocketDecl st.classify fnode.inputs)
        = []
    rw [hdeclIn]
    rfl
  have houts : ((addDummy st fnode).1).outputs = [] := by
    show freshSockets (st.nextSocketId
        + (freshSockets st.nextSocketId
            (dummySocketDecl st.classify fnode.inputs)).length)
        (dummySocketDecl st.classify fnode.outputs) = []
    rw [hdeclOut]
    rfl
  have hmap : ((addDummy st fnode).2).socketByFSocket = st.socketByFSocket := by
    rw [addDummy_eq_addNodeMapped, socketByFSocket_addNodeMapped,
      mapDataSocketsList_eq_zip, mapDataSocketsList_eq_zip, hfilIn, hfilOut]
    simp
  have hnext : ((addDummy st fnode).2).nextSocketId = st.nextSocketId := by
    show st.nextSocketId
        + (freshSockets st.nextSocketId
            (dummySocketDecl st.classify fnode.inputs)).length
        + (freshSockets (st.nextSocketId
            + (freshSockets st.nextSocketId
                (dummySocketDecl st.classify fnode.inputs)).length)
            (dummySocketDecl st.classify fnode.outputs)).length
        = st.nextSocketId
    rw [hdeclIn, hdeclOut]
    rfl
  refine ⟨hins, houts, hmap, hmap, ?_⟩
  exact buildReverseTable_congr _ _ rfl hmap hnext

/-- A graph node over `sampleState` with one non-data input and no data
sockets at all. -/
def noDataFNode : FNode :=
  { name := "z"
    inputs := [⟨1, "b"⟩]
    outputs := []
    rnaString := fun _ => ""
    rnaCollection := fun _ => [] }

/-- Witness for `add_dummy_data_socket_lists`: a dummy node for a graph node
with no data sockets contributes no socket-map entry. -/
theorem add_dummy_data_socket_lists_witness :
    ((addDummy sampleState noDataFNode).2).socketByFSocket
      = sampleState.socketByFSocket :=
  ((add_dummy_data_socket_lists sampleState noDataFNode).2.2
    (by decide) (by decide)).2.2.1

/-- A builder state whose single graph socket 0 is a data socket of type
`single 0`, with an empty network. -/
def mismatchState : BuilderState :=
  { classify := fun i => if i = 0 then some (.single 0) else none
    mappings := ⟨[], []⟩
    socketCount := 1
    nodes := []
    nextSocketId := 0
    socketByFSocket := [] }

/-- A graph node with the single data input socket 0. -/
def mismatchFNode : FNode :=
  { name := "n"
    inputs := [⟨0, "a"⟩]
    outputs := []
    rnaString := fun _ => ""
    rnaCollection := fun _ => [] }

/-- A function whose single input is typed `single 1`, not matching the
graph socket's `single 0`. -/
def mismatchFn : MultiFunction := .primitive 0 [.single 1] []

/-- Counterexample to C2 as stated: after `add_function` with a graph node
whose classifier type does not match the function's signature, the data
socket is mapped but the mapped network socket's data type differs from the
classifier's type, and the diagnostic pass fails. -/
theorem mapped_type_mismatch_after_add_function :
    lookupFSocket ((addFunctionMapped mismatchState mismatchFn mismatchFNode).2) 0
        = [0]
    ∧ tryGetDataType ((addFunctionMapped mismatchState mismatchFn mismatchFNode).2)
        ⟨0, "a"⟩ = some (.single 0)
    ∧ socketType ((addFunctionMapped mismatchState mismatchFn mismatchFNode).2) 0
        = some (.single 1)
    ∧ MFDataType.single 1 ≠ MFDataType.single 0
    ∧ assertFNodeMappedCorrectly
        ((addFunctionMapped mismatchState mismatchFn mismatchFNode).2)
        mismatchFNode = false := by
  refine ⟨by decide, by decide, by decide, by decide, by decide⟩

/-- C2 (amended): the diagnostic pass `assert_fnode_is_mapped_correctly`
succeeds exactly when every data socket has at least one map entry and the
mapped network sockets carry the classifier's type (all of them for inputs;
the single looked-up one for outputs); and after `add_dummy` — or after the
two-argument `add_function` whose function signature positionally matches
the classifier types of the graph node's data sockets — every data socket of
a node with distinct, previously unmapped socket ids has exactly this
property, every mapped network socket typed as the classifier computes. -/
theorem assert_fnode_mapped_amended :
    (∀ (st : BuilderState) (fnode : FNode),
      assertFNodeMappedCorrectly st fnode = true
        ↔ ((∀ s ∈ fnode.inputs, isDataSocket st s = true →
              lookupFSocket st s.id ≠ []
              ∧ ∀ nid ∈ lookupFSocket st s.id,
                  socketType st nid = tryGetDataType st s)
           ∧ (∀ s ∈ fnode.outputs, isDataSocket st s = true →
              ∃ nid, (lookupFSocket st s.id).head? = some nid
                ∧ socketType st nid = tryGetDataType st s)))
    ∧ (∀ (st : BuilderState) (fnode : FNode),
        (∀ q ∈ allSockets st, q.id < st.nextSocketId) →
        (∀ s ∈ fnode.inputs ++ fnode.outputs, isDataC st.classify s = true →
            lookupFSocket st s.id = []) →
        ((((fnode.inputs ++ fnode.outputs).filter
            (isDataC st.classify)).map (·.id)).Nodup) →
        ((∀ s ∈ fnode.inputs ++ fnode.outputs, isDataC st.classify s = true →
            lookupFSocket ((addDummy st fnode).2) s.id ≠ []
            ∧ ∀ nid ∈ lookupFSocket ((addDummy st fnode).2) s.id,
                socketType ((addDummy st fnode).2) nid = tryGetDataType st s)
         ∧ assertFNodeMappedCorrectly ((addDummy st fnode).2) fnode = true))
    ∧ (∀ (st : BuilderState) (fn : MultiFunction) (fnode : FNode),
        (∀ q ∈ allSockets st, q.id < st.nextSocketId) →
        (∀ s ∈ fnode.inputs ++ fnode.outputs, isDataC st.classify s = true →
            lookupFSocket st s.id = []) →
        ((((fnode.inputs ++ fnode.outputs).filter
            (isDataC st.classify)).map (·.id)).Nodup) →
        List.Forall₂ (fun f t => st.classify f.id = some t)
          (fnode.inputs.filter (isDataC st.classify)) fn.inputTypes →
        List.Forall₂ (fun f t => st.classify f.id = some t)
          (fnode.outputs.filter (isDataC st.classify)) fn.outputTypes →
        ((∀ s ∈ fnode.inputs ++ fnode.outputs, isDataC st.classify s = true →
            lookupFSocket ((addFunctionMapped st fn fnode).2) s.id ≠ []
            ∧ ∀ nid ∈ lookupFSocket ((addFunctionMapped st fn fnode).2) s.id,
                socketType ((addFunctionMapped st fn fnode).2) nid
                  = tryGetDataType st s)
         ∧ assertFNodeMappedCorrectly
             ((addFunctionMapped st fn fnode).2) fnode = true)) := by
  refine ⟨?_, ?_, ?_⟩
  · intro st fnode
    unfold assertFNodeMappedCorrectly
    rw [Bool.and_eq_true, assertDataSockets_iff, assertDataSockets_iff]
    constructor
    · rintro ⟨hi, ho⟩
      refine ⟨fun s hs hd => ?_, fun s hs hd => ?_⟩
      · exact (assertFSocket_input_iff st s).mp (hi s hs hd)
      · exact (assertFSocket_output_iff st s).mp (ho s hs hd)
    · rintro ⟨hi, ho⟩
      refine ⟨fun s hs hd => ?_, fun s hs hd => ?_⟩
      · exact (assertFSocket_input_iff st s).mpr (hi s hs hd)
      · exact (assertFSocket_output_iff st s).mpr (ho s hs hd)
  · intro st fnode hWF hFresh hNodup
    rw [addDummy_eq_addNodeMapped]
    exact addNodeMapped_mapped_ok st fnode fnode.name true _ _ hWF hFresh hNodup
      (forall₂_dummyDecl st.classify fnode.inputs)
      (forall₂_dummyDecl st.classify fnode.outputs)
  · intro st fn fnode hWF hFresh hNodup hIn hOut
    rw [addFunctionMapped_eq_addNodeMapped]
    exact addNodeMapped_mapped_ok st fnode "" false _ _ hWF hFresh hNodup
      (List.forall₂_map_right_iff.mpr hIn)
      (List.forall₂_map_right_iff.mpr hOut)

/-- Witness for `assert_fnode_mapped_amended`: the diagnostic passes on the
dummy node built for the sample graph node (data inputs 0 and 2, non-data
input 1). -/
theorem assert_fnode_mapped_amended_witness :
    assertFNodeMappedCorrectly ((addDummy sampleState sampleFNode).2)
      sampleFNode = true :=
  (assert_fnode_mapped_amended.2.1 sampleState sampleFNode
    (by decide) (by decide) (by decide)).2

/-- The graph node with the single data output socket 0. -/
def outFNode : FNode :=
  { name := "n"
    inputs := []
    outputs := [⟨0, "o"⟩]
    rnaString := fun _ => ""
    rnaCollection := fun _ => [] }

/-- A function with one output of the matching type and no inputs. -/
def outFn : MultiFunction := .primitive 0 [] [.single 0]

/-- Counterexample to C8 as stated: mapping the same graph node twice (two
`add_function` calls against it) is a builder operation that takes a state
satisfying the one-entry-per-output invariant to one violating it — the data
output socket ends up with two map entries. -/
theorem double_mapping_breaks_single_output :
    (lookupFSocket ((addFunctionMapped mismatchState outFn outFNode).2) 0).length
        = 1
    ∧ (lookupFSocket ((addFunctionMapped
        ((addFunctionMapped mismatchState outFn outFNode).2) outFn outFNode).2)
          0).length = 2 := by
  refine ⟨by decide, by decide⟩

/-- C8 (amended): graph input sockets map one-to-many (list lookup) while a
graph output socket is looked up as a single network socket; the builder
operations preserve the one-entry-per-data-output invariant provided each
graph node is mapped while its sockets are still unmapped: the plain
`add_function` leaves the map untouched, `add_dummy` and the two-argument
`add_function` (with enough output sockets) add exactly one entry per data
output socket and leave every other graph socket's entries unchanged. -/
theorem single_output_mapping_amended :
    (∀ (st : BuilderState) (fn : MultiFunction),
        ((addFunction st fn).2).socketByFSocket = st.socketByFSocket
        ∧ ∀ fid, lookupFSocket ((addFunction st fn).2) fid = lookupFSocket st fid)
    ∧ (∀ (st : BuilderState) (fnode : FNode),
        (∀ s ∈ fnode.inputs ++ fnode.outputs, isDataC st.classify s = true →
            lookupFSocket st s.id = []) →
        ((((fnode.inputs ++ fnode.outputs).filter
            (isDataC st.classify)).map (·.id)).Nodup) →
        ∀ s ∈ fnode.outputs, isDataC st.classify s = true →
          (lookupFSocket ((addDummy st fnode).2) s.id).length = 1)
    ∧ (∀ (st : BuilderState) (fn : MultiFunction) (fnode : FNode),
        (∀ s ∈ fnode.inputs ++ fnode.outputs, isDataC st.classify s = true →
            lookupFSocket st s.id = []) →
        ((((fnode.inputs ++ fnode.outputs).filter
            (isDataC st.classify)).map (·.id)).Nodup) →
        (fnode.outputs.filter (isDataC st.classify)).length
            ≤ fn.outputTypes.length →
        ∀ s ∈ fnode.outputs, isDataC st.classify s = true →
          (lookupFSocket ((addFunctionMapped st fn fnode).2) s.id).length = 1)
    ∧ (∀ (st : BuilderState) (fnode : FNode) (fid : Nat),
        fid ∉ ((fnode.inputs ++ fnode.outputs).filter
            (isDataC st.classify)).map (·.id) →
        lookupFSocket ((addDummy st fnode).2) fid = lookupFSocket st fid)
    ∧ (∀ (st : BuilderState) (fn : MultiFunction) (fnode : FNode) (fid : Nat),
        fid ∉ ((fnode.inputs ++ fnode.outputs).filter
            (isDataC st.classify)).map (·.id) →
        lookupFSocket ((addFunctionMapped st fn fnode).2) fid
          = lookupFSocket st fid) := by
  refine ⟨fun st fn => ⟨rfl, fun fid => rfl⟩, ?_, ?_, ?_, ?_⟩
  · intro st fnode hFresh hNodup s hs hd
    rw [addDummy_eq_addNodeMapped]
    obtain ⟨p, hp, hps, hlook⟩ := lookup_addNodeMapped_data_output st fnode
      fnode.name true (dummySocketDecl st.classify fnode.inputs)
      (dummySocketDecl st.classify fnode.outputs) hFresh hNodup
      (le_of_eq (forall₂_dummyDecl st.classify fnode.outputs).length_eq)
      s hs hd
    rw [hlook]
    rfl
  · intro st fn fnode hFresh hNodup hlen s hs hd
    rw [addFunctionMapped_eq_addNodeMapped]
    obtain ⟨p, hp, hps, hlook⟩ := lookup_addNodeMapped_data_output st fnode
      "" false (fn.inputTypes.map fun t => ("", t))
      (fn.outputTypes.map fun t => ("", t)) hFresh hNodup
      (by rw [List.length_map]; exact hlen) s hs hd
    rw [hlook]
    rfl
  · intro st fnode fid h
    rw [addDummy_eq_addNodeMapped]
    exact lookup_addNodeMapped_other st fnode fnode.name true _ _ fid h
  · intro st fn fnode fid h
    rw [addFunctionMapped_eq_addNodeMapped]
    exact lookup_addNodeMapped_other st fnode "" false _ _ fid h

/-- A graph node over `sampleState` with one data output socket 0. -/
def outSampleFNode : FNode :=
  { name := "o"
    inputs := []
    outputs := [⟨0, "o"⟩]
    rnaString := fun _ => ""
    rnaCollection := fun _ => [] }

/-- Witness for `single_output_mapping_amended`: a freshly mapped data
output socket has exactly one map entry. -/
theorem single_output_mapping_amended_witness :
    (lookupFSocket ((addDummy sampleState outSampleFNode).2) 0).length = 1 :=
  single_output_mapping_amended.2.1 sampleState outSampleFNode
    (by decide) (by decide) ⟨0, "o"⟩ (by decide) (by decide)

end FN
